/-
Verification of the CRM GraphQL mutation layer (crm/schema.py).

Shallow embedding: the relational backing store is a `State` of three
tables (customers, products, orders) with auto-increment id counters;
each mutation of `crm/schema.py` becomes a Lean function on `State`,
returning `Except String _` where the Python code may `raise Exception`.
Prices are embedded as rationals (the source uses Python floats; all
arithmetic in scope is addition of short decimal literals).
-/
import Mathlib

namespace CRM

/-- A row of the Customer table (models `crm.models.Customer`):
auto-increment id, name, unique email, optional phone. -/
structure Customer where
  id : Nat
  name : String
  email : String
  phone : Option String
deriving Repr, DecidableEq

/-- A row of the Product table: auto-increment id, name, price, stock. -/
structure Product where
  id : Nat
  name : String
  price : ℚ
  stock : Int
deriving Repr, DecidableEq

/-- A row of the Order table together with its product associations
(`order.products.set(products)` stores the ids of the associated
products; `total_amount` is stored, not recomputed). -/
structure Order where
  id : Nat
  customerId : Nat
  productIds : List Nat
  total_amount : ℚ
deriving Repr, DecidableEq

/-- The backing store: the three tables in insertion order, plus the
next auto-increment primary key for each. -/
structure State where
  customers : List Customer
  products : List Product
  orders : List Order
  nextCustomerId : Nat
  nextProductId : Nat
  nextOrderId : Nat
deriving Repr, DecidableEq

/-- The empty database. -/
def State.init : State := ⟨[], [], [], 1, 1, 1⟩

/-- Embedding of `Customer.objects.filter(email=email).exists()`. -/
def emailExists (s : State) (email : String) : Bool :=
  s.customers.any (fun c => c.email == email)

/- ### Phone validation

`re.match(r"^(\+\d{10,15}|\d{3}-\d{3}-\d{4})$", phone)` in Python.
`\d` is modelled as the ASCII digits 0-9 (Python's `\d` additionally
matches non-ASCII Unicode decimal digits, which are not modelled).
Python's `$` matches at the end of the string OR just before a single
newline at the end of the string, so the regex also accepts a matching
core followed by one trailing `'\n'`; `matchPhoneRegex` reproduces
this. -/

/-- The alternative `\+\d{10,15}`: a `'+'` followed by 10 to 15 digits. -/
def phoneIntl (cs : List Char) : Bool :=
  match cs with
  | c :: ds =>
      c == '+' && ds.all Char.isDigit && decide (10 ≤ ds.length) && decide (ds.length ≤ 15)
  | [] => false

/-- The alternative `\d{3}-\d{3}-\d{4}`. -/
def phoneDashed (cs : List Char) : Bool :=
  match cs with
  | [a, b, c, h1, d, e, f, h2, g, h, i, j] =>
      a.isDigit && b.isDigit && c.isDigit && h1 == '-' &&
      d.isDigit && e.isDigit && f.isDigit && h2 == '-' &&
      g.isDigit && h.isDigit && i.isDigit && j.isDigit
  | _ => false

/-- The whole alternation `(\+\d{10,15}|\d{3}-\d{3}-\d{4})`. -/
def phoneCore (cs : List Char) : Bool :=
  phoneIntl cs || phoneDashed cs

/-- Embedding of `re.match(r"^(\+\d{10,15}|\d{3}-\d{3}-\d{4})$", s)` as a Bool:
the core matches the whole string, or the whole string minus a single
trailing newline (Python `$` semantics). -/
def matchPhoneRegex (s : String) : Bool :=
  phoneCore s.data ||
    (!s.data.isEmpty && s.data.getLast? == some '\n' && phoneCore s.data.dropLast)

/-- The guard `if phone and not re.match(...)` of `CreateCustomer.mutate`,
as the condition for the phone to pass: a phone passes when it is absent
(`None`), empty (`""` is falsy in Python, so the check is skipped), or
matches the regex. -/
def phoneCheckPasses (phone : Option String) : Bool :=
  match phone with
  | none => true
  | some s => s.isEmpty || matchPhoneRegex s

/- ### CreateCustomer -/

/-- Embedding of `CreateCustomer.mutate(self, info, name, email, phone=None)`:
raise on duplicate email, then on bad phone format, else create the
row and return it with the success message. -/
def createCustomer (s : State) (name email : String) (phone : Option String) :
    Except String (Customer × String × State) :=
  if emailExists s email then
    .error "Email already exists"
  else if !phoneCheckPasses phone then
    .error "Invalid phone format"
  else
    let c : Customer := ⟨s.nextCustomerId, name, email, phone⟩
    .ok (c, "Customer created successfully",
      { s with customers := s.customers ++ [c],
               nextCustomerId := s.nextCustomerId + 1 })

/- ### BulkCreateCustomers -/

/-- One element of the `input` list of `BulkCreateCustomers`
(the `CustomerInput` input object type). -/
structure CustomerInput where
  name : String
  email : String
  phone : Option String
deriving Repr, DecidableEq

/-- The effect of `Customer.objects.create(name=data.name,
email=data.email, phone=data.phone)` in the bulk loop: append the new
row (note: the phone is stored verbatim, with no format validation). -/
def bulkStep (s : State) (d : CustomerInput) : State :=
  { s with customers := s.customers ++ [⟨s.nextCustomerId, d.name, d.email, d.phone⟩],
           nextCustomerId := s.nextCustomerId + 1 }

/-- The loop body of `BulkCreateCustomers.mutate`: for each item, if the
email is already taken record the error string `"Duplicate email"` and
skip it, otherwise create the customer; no phone validation is
performed.  The `try/except` catches each item's exception, so the
loop - and the surrounding `transaction.atomic()` block - always runs
to completion and commits: the function is total, returning
`(created customers, error strings, final store)`. -/
def bulkGo (s : State) : List CustomerInput → List Customer × List String × State
  | [] => ([], [], s)
  | d :: rest =>
    if emailExists s d.email then
      let r := bulkGo s rest
      (r.1, "Duplicate email" :: r.2.1, r.2.2)
    else
      let r := bulkGo (bulkStep s d) rest
      (⟨s.nextCustomerId, d.name, d.email, d.phone⟩ :: r.1, r.2.1, r.2.2)

/-- Embedding of `BulkCreateCustomers.mutate(self, info, input)`. -/
def bulkCreateCustomers (s : State) (input : List CustomerInput) :
    List Customer × List String × State :=
  bulkGo s input

/- ### CreateProduct -/

/-- Embedding of `CreateProduct.mutate(self, info, name, price, stock=0)`; `stock`
is optional in the GraphQL arguments, `none` models an omitted stock
(Python default `0`). -/
def createProduct (s : State) (name : String) (price : ℚ) (stock : Option Int) :
    Except String (Product × State) :=
  let st := stock.getD 0
  if price ≤ 0 then
    .error "Price must be positive"
  else if st < 0 then
    .error "Stock cannot be negative"
  else
    let p : Product := ⟨s.nextProductId, name, price, st⟩
    .ok (p, { s with products := s.products ++ [p],
                     nextProductId := s.nextProductId + 1 })

/- ### CreateOrder -/

/-- Embedding of `Customer.objects.get(id=customer_id)` (`None` models
`Customer.DoesNotExist`). -/
def findCustomer (s : State) (customerId : Nat) : Option Customer :=
  s.customers.find? (fun c => c.id == customerId)

/-- Embedding of `Product.objects.filter(id__in=product_ids)`: the rows of the
Product table, in table order, whose id occurs in the request list. -/
def resolvedProducts (s : State) (productIds : List Nat) : List Product :=
  s.products.filter (fun p => productIds.contains p.id)

/-- Embedding of `CreateOrder.mutate(self, info, customer_id, product_ids)`:
reject an empty list, resolve the customer, resolve the products and
compare `products.count()` with `len(product_ids)`, sum the resolved
products' prices into `total_amount`, create the order and set its
product associations. -/
def createOrder (s : State) (customerId : Nat) (productIds : List Nat) :
    Except String (Order × State) :=
  if productIds.isEmpty then
    .error "At least one product is required"
  else
    match findCustomer s customerId with
    | none => .error "Invalid customer ID"
    | some customer =>
      let products := resolvedProducts s productIds
      if products.length != productIds.length then
        .error "Invalid product ID"
      else
        let total := (products.map Product.price).sum
        let order : Order :=
          ⟨s.nextOrderId, customer.id, products.map Product.id, total⟩
        .ok (order, { s with orders := s.orders ++ [order],
                             nextOrderId := s.nextOrderId + 1 })

/-- Lookup of a product row by id (`Product.objects.get(id=...)`). -/
def findProduct (s : State) (productId : Nat) : Option Product :=
  s.products.find? (fun p => p.id == productId)

/-- The price of the product with a given id (`0` when absent); used
only to state what `total_amount` must be. -/
def priceOf (s : State) (productId : Nat) : ℚ :=
  ((findProduct s productId).map Product.price).getD 0

/- ### Spec-side predicates

These follow the specification's words, not the code; the claim
theorems compare the code's behaviour against them. -/

/-- Spec wording: "international `+` followed by 10-15 digits". -/
def SpecIntl (cs : List Char) : Prop :=
  ∃ ds : List Char, cs = '+' :: ds ∧ (∀ c ∈ ds, c.isDigit = true) ∧
    10 ≤ ds.length ∧ ds.length ≤ 15

/-- Spec wording: `DDD-DDD-DDDD` - three digits, a hyphen, three
digits, a hyphen, four digits. -/
def SpecDashed (cs : List Char) : Prop :=
  ∃ a b c d e f g h i j : Char,
    cs = [a, b, c, '-', d, e, f, '-', g, h, i, j] ∧
    ∀ x ∈ [a, b, c, d, e, f, g, h, i, j], x.isDigit = true

/-- Spec wording: one of the two allowed phone formats. -/
def SpecPhone (cs : List Char) : Prop := SpecIntl cs ∨ SpecDashed cs

/-- Spec-side reformulation of the duplicate condition of
`BulkCreateCustomers`: an item is a duplicate exactly when its email
is already taken at the start of the call or occurs in an earlier item
of the same call (equivalent to the code's check against the growing
store, because the set of taken emails only grows during the loop).
`specDupFlags taken input` marks each item of `input` with its
duplicate flag, `taken` listing the emails taken at the start. -/
def specDupFlags (taken : List String) : List CustomerInput → List Bool
  | [] => []
  | d :: rest => decide (d.email ∈ taken) :: specDupFlags (taken ++ [d.email]) rest

/-- A concrete store used to instantiate theorems: one customer and
two products priced 10.00 and 5.50. -/
def dbTwo : State :=
  ⟨[⟨1, "Alice", "alice@example.com", none⟩],
   [⟨1, "Widget", 10, 5⟩, ⟨2, "Gadget", 11/2, 3⟩], [], 2, 3, 1⟩

/- ### Phone validation lemmas -/

/-- The embedded `\+\d{10,15}` test agrees with the spec's wording of
the international format. -/
theorem phoneIntl_iff (cs : List Char) : phoneIntl cs = true ↔ SpecIntl cs := by
  cases cs with
  | nil => simp [phoneIntl, SpecIntl]
  | cons c ds =>
    simp only [phoneIntl, Bool.and_eq_true, beq_iff_eq, List.all_eq_true, decide_eq_true_eq,
      SpecIntl, List.cons.injEq]
    constructor
    · rintro ⟨⟨⟨hc, hd⟩, h10⟩, h15⟩
      exact ⟨ds, ⟨hc, rfl⟩, hd, h10, h15⟩
    · rintro ⟨ds', ⟨hc, hds⟩, hd, h10, h15⟩
      subst hds
      exact ⟨⟨⟨hc, hd⟩, h10⟩, h15⟩

/-- The embedded `\d{3}-\d{3}-\d{4}` test agrees with the spec's
wording of the dashed format. -/
theorem phoneDashed_iff (cs : List Char) : phoneDashed cs = true ↔ SpecDashed cs := by
  constructor
  · intro hm
    unfold phoneDashed at hm
    split at hm
    · next a b c h1 d e f h2 g h i j =>
      simp only [Bool.and_eq_true, beq_iff_eq] at hm
      refine ⟨a, b, c, d, e, f, g, h, i, j, ?_, ?_⟩
      · rw [hm.1.1.1.1.1.1.1.1.2, hm.1.1.1.1.2]
      · intro x hx
        simp only [List.mem_cons, List.not_mem_nil, or_false] at hx
        rcases hx with rfl | rfl | rfl | rfl | rfl | rfl | rfl | rfl | rfl | rfl <;> simp_all
    · exact absurd hm (by simp)
  · rintro ⟨a, b, c, d, e, f, g, h, i, j, rfl, hd⟩
    simp only [List.mem_cons, List.not_mem_nil, or_false] at hd
    simp only [phoneDashed]
    simp_all

/-- The regex alternation agrees with the disjunction of the two spec
formats. -/
theorem phoneCore_iff (cs : List Char) : phoneCore cs = true ↔ SpecPhone cs := by
  simp only [phoneCore, Bool.or_eq_true, SpecPhone, phoneIntl_iff, phoneDashed_iff]

/-- Characterisation of the Python `re.match` call: the string matches
one of the two formats outright, or after stripping one trailing
newline (the `$` anchor's newline allowance). -/
theorem matchPhoneRegex_iff (s : String) :
    matchPhoneRegex s = true ↔
      (SpecPhone s.data ∨ ∃ ts, s.data = ts ++ ['\n'] ∧ SpecPhone ts) := by
  unfold matchPhoneRegex
  simp only [Bool.or_eq_true, Bool.and_eq_true, Bool.not_eq_true', phoneCore_iff, beq_iff_eq]
  constructor
  · rintro (hc | ⟨⟨hne, hlast⟩, hcore⟩)
    · exact Or.inl hc
    · refine Or.inr ⟨s.data.dropLast, ?_, hcore⟩
      exact (List.dropLast_append_getLast? (l := s.data) '\n' hlast).symm
  · rintro (hc | ⟨ts, hts, hcore⟩)
    · exact Or.inl hc
    · refine Or.inr ⟨⟨?_, ?_⟩, ?_⟩
      · rw [hts]; simp
      · rw [hts]; exact List.getLast?_concat ts
      · rw [hts, List.dropLast_concat]; exact hcore

/-- Full characterisation of the phone guard of `CreateCustomer` on a
present phone. -/
theorem phoneCheckPasses_iff (s : String) :
    phoneCheckPasses (some s) = true ↔
      (s.data = [] ∨ SpecPhone s.data ∨ ∃ ts, s.data = ts ++ ['\n'] ∧ SpecPhone ts) := by
  simp only [phoneCheckPasses, Bool.or_eq_true, matchPhoneRegex_iff, String.isEmpty_iff]
  constructor
  · rintro (he | h)
    · left
      rw [he]
    · exact Or.inr h
  · rintro (he | h)
    · left
      apply String.ext
      simpa using he
    · exact Or.inr h

/-- Claim C3, as stated, is false on the code: the phone check of
`CreateCustomer` accepts the empty string (Python truthiness makes
`if phone and ...` skip the check for `""`), although `""` matches
neither of the two allowed formats. -/
theorem c3_counterexample :
    ¬ (phoneCheckPasses (some "") = true ↔ SpecPhone "".data) := by
  intro h
  rcases h.mp rfl with ⟨ds, hds, -⟩ | ⟨a, b, c, d, e, f, g, h', i, j, habs, -⟩
  · simp at hds
  · simp at habs

/-- Claim C3 (amended): the phone validation accepts an absent phone,
accepts `+15551234567` and `555-123-4567`, rejects `abc` and `123456`,
and on a present phone accepts exactly the empty string, the strings
matching one of the two formats, and such a matching string followed
by a single trailing newline. -/
theorem c3_phone_validation :
    phoneCheckPasses none = true ∧
    phoneCheckPasses (some "+15551234567") = true ∧
    phoneCheckPasses (some "555-123-4567") = true ∧
    phoneCheckPasses (some "abc") = false ∧
    phoneCheckPasses (some "123456") = false ∧
    ∀ s : String, phoneCheckPasses (some s) = true ↔
      (s.data = [] ∨ SpecPhone s.data ∨ ∃ ts, s.data = ts ++ ['\n'] ∧ SpecPhone ts) :=
  ⟨rfl, by decide, by decide, by decide, by decide, phoneCheckPasses_iff⟩

/- ### CreateCustomer theorems -/

/-- Claim C2: `CreateCustomer` fails on a taken email, fails on a
present phone rejected by the phone check, and otherwise persists
exactly one new row with the given fields and returns it with the
success message; two calls with distinct fresh emails both succeed. -/
theorem createCustomer_spec (s : State) (name email : String) (phone : Option String) :
    (emailExists s email = true →
      createCustomer s name email phone = .error "Email already exists") ∧
    (emailExists s email = false → phoneCheckPasses phone = false →
      createCustomer s name email phone = .error "Invalid phone format") ∧
    (emailExists s email = false → phoneCheckPasses phone = true →
      createCustomer s name email phone =
        .ok (⟨s.nextCustomerId, name, email, phone⟩, "Customer created successfully",
          { s with customers := s.customers ++ [⟨s.nextCustomerId, name, email, phone⟩],
                   nextCustomerId := s.nextCustomerId + 1 })) ∧
    (∀ name2 email2 phone2, email ≠ email2 →
      emailExists s email = false → emailExists s email2 = false →
      phoneCheckPasses phone = true → phoneCheckPasses phone2 = true →
      ∃ c1 m1 s1 c2 m2 s2,
        createCustomer s name email phone = .ok (c1, m1, s1) ∧
        createCustomer s1 name2 email2 phone2 = .ok (c2, m2, s2)) := by
  refine ⟨?_, ?_, ?_, ?_⟩
  · intro h
    simp [createCustomer, h]
  · intro h1 h2
    simp [createCustomer, h1, h2]
  · intro h1 h2
    simp [createCustomer, h1, h2]
  · intro name2 email2 phone2 hne h1 h1' h2 h2'
    have hok1 : createCustomer s name email phone =
        .ok (⟨s.nextCustomerId, name, email, phone⟩, "Customer created successfully",
          { s with customers := s.customers ++ [⟨s.nextCustomerId, name, email, phone⟩],
                   nextCustomerId := s.nextCustomerId + 1 }) := by
      simp [createCustomer, h1, h2]
    set s1 : State :=
      { s with customers := s.customers ++ [⟨s.nextCustomerId, name, email, phone⟩],
               nextCustomerId := s.nextCustomerId + 1 } with hs1
    have h1'' : emailExists s1 email2 = false := by
      simp only [hs1, emailExists, List.any_append, Bool.or_eq_false_iff] at h1' ⊢
      refine ⟨h1', ?_⟩
      simp [hne]
    have hok2 : createCustomer s1 name2 email2 phone2 =
        .ok (⟨s1.nextCustomerId, name2, email2, phone2⟩, "Customer created successfully",
          { s1 with customers := s1.customers ++ [⟨s1.nextCustomerId, name2, email2, phone2⟩],
                    nextCustomerId := s1.nextCustomerId + 1 }) := by
      simp [createCustomer, h1'', h2']
    exact ⟨_, _, _, _, _, _, hok1, hok2⟩

/-- Witness for claim C2 at a concrete input. -/
theorem createCustomer_spec_witness :
    createCustomer State.init "Alice" "alice@example.com" none =
      .ok (⟨1, "Alice", "alice@example.com", none⟩, "Customer created successfully",
        ⟨[⟨1, "Alice", "alice@example.com", none⟩], [], [], 2, 1, 1⟩) :=
  (createCustomer_spec State.init "Alice" "alice@example.com" none).2.2.1 rfl rfl

/-- Claim C7: `CreateCustomer` is not idempotent in the email - after
any successful call, a second call with the same email fails with the
duplicate-email error, whatever the other fields are. -/
theorem createCustomer_not_idempotent (s : State) (n e : String) (p : Option String)
    (c : Customer) (m : String) (s' : State) (n2 : String) (p2 : Option String)
    (h : createCustomer s n e p = .ok (c, m, s')) :
    createCustomer s' n2 e p2 = .error "Email already exists" := by
  unfold createCustomer at h
  split at h
  · exact absurd h (by simp)
  · split at h
    · exact absurd h (by simp)
    · simp only [Except.ok.injEq, Prod.mk.injEq] at h
      have hs' : s'.customers = s.customers ++ [⟨s.nextCustomerId, n, e, p⟩] := by
        rw [← h.2.2]
      have he : emailExists s' e = true := by
        simp [emailExists, hs']
      simp [createCustomer, he]

/-- Witness for claim C7 at a concrete input. -/
theorem createCustomer_not_idempotent_witness :
    createCustomer ⟨[⟨1, "A", "a@x.com", none⟩], [], [], 2, 1, 1⟩ "B" "a@x.com" none =
      .error "Email already exists" :=
  createCustomer_not_idempotent State.init "A" "a@x.com" none
    ⟨1, "A", "a@x.com", none⟩ "Customer created successfully"
    ⟨[⟨1, "A", "a@x.com", none⟩], [], [], 2, 1, 1⟩ "B" none rfl

/- ### CreateOrder counting lemmas -/

/-- Every id of a resolved product occurs in the requested id list. -/
theorem mem_pids_of_mem_resolved (s : State) (pids : List Nat) :
    ∀ x ∈ (resolvedProducts s pids).map Product.id, x ∈ pids := by
  intro x hx
  simp only [resolvedProducts, List.mem_map] at hx
  obtain ⟨p, hp, rfl⟩ := hx
  have h := List.of_mem_filter hp
  simpa [List.elem_iff] using h

/-- Resolved products inherit the distinctness of the table's ids. -/
theorem resolved_id_nodup (s : State) (hn : (s.products.map Product.id).Nodup)
    (pids : List Nat) : ((resolvedProducts s pids).map Product.id).Nodup :=
  hn.sublist ((List.filter_sublist s.products).map Product.id)

/-- The number of resolved products is at most the number of distinct
requested ids. -/
theorem resolved_length_le_dedup (s : State) (hn : (s.products.map Product.id).Nodup)
    (pids : List Nat) : (resolvedProducts s pids).length ≤ pids.dedup.length := by
  have h1 : (resolvedProducts s pids).map Product.id ⊆ pids.dedup := fun x hx =>
    List.mem_dedup.mpr (mem_pids_of_mem_resolved s pids x hx)
  have h2 := (List.subperm_of_subset (resolved_id_nodup s hn pids) h1).length_le
  simpa using h2

/-- A list with a repeated element has strictly fewer distinct
elements than elements. -/
theorem dedup_length_lt_of_not_nodup {pids : List Nat} (h : ¬ pids.Nodup) :
    pids.dedup.length < pids.length := by
  have h1 := List.dedup_sublist pids
  rcases Nat.lt_or_ge pids.dedup.length pids.length with h2 | h2
  · exact h2
  · exact absurd (List.dedup_eq_self.mp (h1.eq_of_length (Nat.le_antisymm h1.length_le h2))) h

/- ### CreateOrder theorems -/

/-- Claim C10: a successful `CreateOrder` changes no pre-existing row -
it leaves the customer and product tables (and the id counters for
both) untouched and only appends the new order. -/
theorem createOrder_frame (s : State) (cid : Nat) (pids : List Nat) (o : Order) (s' : State)
    (h : createOrder s cid pids = .ok (o, s')) :
    s'.customers = s.customers ∧ s'.products = s.products ∧
    s'.orders = s.orders ++ [o] ∧
    s'.nextCustomerId = s.nextCustomerId ∧ s'.nextProductId = s.nextProductId := by
  simp only [createOrder] at h
  split at h
  · exact absurd h (by simp)
  · split at h
    · exact absurd h (by simp)
    · split at h
      · exact absurd h (by simp)
      · simp only [Except.ok.injEq, Prod.mk.injEq] at h
        obtain ⟨h1, h2⟩ := h
        subst h2
        exact ⟨rfl, rfl, by rw [h1], rfl, rfl⟩

/-- Witness for claim C10 at a concrete input. -/
theorem createOrder_frame_witness :
    ∃ o s', createOrder dbTwo 1 [1, 2] = .ok (o, s') ∧
      s'.customers = dbTwo.customers ∧ s'.products = dbTwo.products := by
  have hok : createOrder dbTwo 1 [1, 2] = .ok (⟨1, 1, [1, 2], 31/2⟩,
      ⟨dbTwo.customers, dbTwo.products, [⟨1, 1, [1, 2], 31/2⟩], 2, 3, 2⟩) := by
    simp [createOrder, dbTwo, findCustomer, resolvedProducts]
    norm_num
  have h := createOrder_frame dbTwo 1 [1, 2] _ _ hok
  exact ⟨_, _, hok, h.1, h.2.1⟩

/-- Claim C4: `CreateProduct` fails exactly when `price ≤ 0` or the
stock (defaulting to `0` when omitted) is negative; otherwise it
appends the new product, which is then retrievable by its id. -/
theorem createProduct_spec (s : State) (name : String) (price : ℚ) (stock : Option Int) :
    ((∃ e, createProduct s name price stock = .error e) ↔ price ≤ 0 ∨ stock.getD 0 < 0) ∧
    (¬(price ≤ 0 ∨ stock.getD 0 < 0) →
      createProduct s name price stock =
        .ok (⟨s.nextProductId, name, price, stock.getD 0⟩,
          { s with products := s.products ++ [⟨s.nextProductId, name, price, stock.getD 0⟩],
                   nextProductId := s.nextProductId + 1 })) ∧
    ((∀ q ∈ s.products, q.id < s.nextProductId) →
      ∀ p s', createProduct s name price stock = .ok (p, s') →
        s'.products.find? (fun q => q.id == p.id) = some p) := by
  refine ⟨?_, ?_, ?_⟩
  · by_cases h1 : price ≤ 0
    · simp [createProduct, h1]
    · by_cases h2 : stock.getD 0 < 0
      · simp [createProduct, h1, h2]
      · simp [createProduct, h1, h2]
  · intro h
    push_neg at h
    simp [createProduct, not_le.mpr h.1, not_lt.mpr h.2]
  · intro hwf p s' h
    have h1 : ¬ price ≤ 0 := by
      by_contra hc
      simp [createProduct, hc] at h
    have h2 : ¬ stock.getD 0 < 0 := by
      by_contra hc
      simp [createProduct, h1, hc] at h
    simp only [createProduct, if_neg h1, if_neg h2, Except.ok.injEq, Prod.mk.injEq] at h
    obtain ⟨hp, hs'⟩ := h
    subst hs'
    subst hp
    rw [List.find?_append]
    have hnone : s.products.find? (fun q => q.id == s.nextProductId) = none := by
      rw [List.find?_eq_none]
      intro q hq
      simpa using Nat.ne_of_lt (hwf q hq)
    rw [hnone]
    simp

/-- Witness for claim C4 at concrete inputs: price 9.99 with stock 5
succeeds and the spec's two failing examples fail. -/
theorem createProduct_spec_witness :
    createProduct State.init "Widget" (999/100) (some 5) =
      .ok (⟨1, "Widget", 999/100, 5⟩, ⟨[], [⟨1, "Widget", 999/100, 5⟩], [], 1, 2, 1⟩) ∧
    (∃ e, createProduct State.init "Widget" 0 none = .error e) ∧
    (∃ e, createProduct State.init "Widget" (999/100) (some (-1)) = .error e) :=
  ⟨(createProduct_spec State.init "Widget" (999/100) (some 5)).2.1 (by norm_num),
    ((createProduct_spec State.init "Widget" 0 none).1).mpr (by norm_num),
    ((createProduct_spec State.init "Widget" (999/100) (some (-1))).1).mpr (by simp)⟩

/-- Claim C5: `CreateOrder` fails on an empty id list, fails with the
customer error when the customer id does not resolve, fails with the
product error when the resolved-product count differs from the request
length (and an unresolvable product id forces such a mismatch), and
otherwise persists the order. -/
theorem createOrder_validation (s : State) (cid : Nat) (pids : List Nat)
    (hnodup : (s.products.map Product.id).Nodup) :
    (pids = [] → createOrder s cid pids = .error "At least one product is required") ∧
    (pids ≠ [] → findCustomer s cid = none →
      createOrder s cid pids = .error "Invalid customer ID") ∧
    ((∃ i ∈ pids, ∀ p ∈ s.products, p.id ≠ i) →
      (resolvedProducts s pids).length ≠ pids.length) ∧
    (pids ≠ [] → (∃ c, findCustomer s cid = some c) →
      (resolvedProducts s pids).length ≠ pids.length →
      createOrder s cid pids = .error "Invalid product ID") ∧
    (pids ≠ [] → (∃ c, findCustomer s cid = some c) →
      (resolvedProducts s pids).length = pids.length →
      ∃ o s', createOrder s cid pids = .ok (o, s') ∧ s'.orders = s.orders ++ [o]) := by
  refine ⟨?_, ?_, ?_, ?_, ?_⟩
  · intro h
    simp [createOrder, h]
  · intro h1 h2
    simp [createOrder, h1, h2]
  · rintro ⟨i, hi, hmiss⟩
    have hne : i ∈ pids.dedup := List.mem_dedup.mpr hi
    have hsub : (resolvedProducts s pids).map Product.id ⊆ pids.dedup.erase i := by
      intro x hx
      have hxp := mem_pids_of_mem_resolved s pids x hx
      have hxne : x ≠ i := by
        simp only [resolvedProducts, List.mem_map] at hx
        obtain ⟨p, hp, rfl⟩ := hx
        exact hmiss p (List.mem_of_mem_filter hp)
      exact (List.mem_erase_of_ne hxne).mpr (List.mem_dedup.mpr hxp)
    have hlen := (List.subperm_of_subset (resolved_id_nodup s hnodup pids) hsub).length_le
    simp only [List.length_map] at hlen
    have herase := List.length_erase_add_one hne
    have hdedup := (List.dedup_sublist pids).length_le
    omega
  · intro h1 h2 h3
    obtain ⟨c, hc⟩ := h2
    simp [createOrder, h1, hc, h3]
  · intro h1 h2 h3
    obtain ⟨c, hc⟩ := h2
    refine ⟨⟨s.nextOrderId, c.id, (resolvedProducts s pids).map Product.id,
      ((resolvedProducts s pids).map Product.price).sum⟩,
      { s with orders := s.orders ++ [⟨s.nextOrderId, c.id,
          (resolvedProducts s pids).map Product.id,
          ((resolvedProducts s pids).map Product.price).sum⟩],
               nextOrderId := s.nextOrderId + 1 }, ?_, rfl⟩
    simp [createOrder, h1, hc, h3]

/-- Witness for claim C5 at concrete inputs: empty list, unknown
customer, unknown product. -/
theorem createOrder_validation_witness :
    createOrder dbTwo 1 [] = .error "At least one product is required" ∧
    createOrder dbTwo 2 [1] = .error "Invalid customer ID" ∧
    createOrder dbTwo 1 [99] = .error "Invalid product ID" :=
  ⟨(createOrder_validation dbTwo 1 [] (by decide)).1 rfl,
   (createOrder_validation dbTwo 2 [1] (by decide)).2.1 (by decide) rfl,
   (createOrder_validation dbTwo 1 [99] (by decide)).2.2.2.1 (by decide)
     ⟨⟨1, "Alice", "alice@example.com", none⟩, rfl⟩ (by decide)⟩

/-- Claim C9: a request repeating an existing product id resolves to
strictly fewer rows than requested ids, so `CreateOrder` rejects it
with the product error although every id is known. -/
theorem createOrder_duplicate_ids (s : State) (cid : Nat) (pids : List Nat) (i : Nat)
    (hnodup : (s.products.map Product.id).Nodup)
    (hcount : 2 ≤ pids.count i)
    (hresolve : ∀ j ∈ pids, ∃ p ∈ s.products, p.id = j)
    (hcust : ∃ c, findCustomer s cid = some c) :
    (resolvedProducts s pids).length < pids.length ∧
    createOrder s cid pids = .error "Invalid product ID" := by
  have hnd : ¬ pids.Nodup := by
    intro hn
    have := List.nodup_iff_count_le_one.mp hn i
    omega
  have hlt := dedup_length_lt_of_not_nodup hnd
  have hle := resolved_length_le_dedup s hnodup pids
  have hmain : (resolvedProducts s pids).length < pids.length := lt_of_le_of_lt hle hlt
  refine ⟨hmain, ?_⟩
  obtain ⟨c, hc⟩ := hcust
  have hne : pids ≠ [] := by
    intro h
    rw [h] at hcount
    simp at hcount
  simp [createOrder, hne, hc, Nat.ne_of_lt hmain]

/-- Witness for claim C9 at a concrete input: the same existing id
twice. -/
theorem createOrder_duplicate_ids_witness :
    createOrder dbTwo 1 [1, 1] = .error "Invalid product ID" :=
  (createOrder_duplicate_ids dbTwo 1 [1, 1] 1 (by decide) (by decide) (by decide)
    ⟨⟨1, "Alice", "alice@example.com", none⟩, rfl⟩).2

/-- With pairwise-distinct table ids, id lookup retrieves exactly a
given member row. -/
theorem find?_id_of_nodup (l : List Product) (hn : (l.map Product.id).Nodup)
    (p : Product) (hp : p ∈ l) : l.find? (fun q => q.id == p.id) = some p := by
  induction l with
  | nil => simp at hp
  | cons q t ih =>
    simp only [List.map_cons, List.nodup_cons, List.mem_map] at hn
    rcases List.mem_cons.mp hp with rfl | hpt
    · exact List.find?_cons_of_pos _ (by simp)
    · have hne : (q.id == p.id) = false := by
        simp only [beq_eq_false_iff_ne, ne_eq]
        intro he
        exact hn.1 ⟨p, hpt, he.symm⟩
      simp only [List.find?_cons, hne]
      exact ih hn.2 hpt

/-- Claim C6: the order persisted by a successful `CreateOrder` stores
as `total_amount` the sum, over the requested ids, of the price of the
product with that id; its stored product ids are a permutation of the
requested ids; and the order is appended to the order table. -/
theorem createOrder_total (s : State) (cid : Nat) (pids : List Nat) (o : Order) (s' : State)
    (hnodup : (s.products.map Product.id).Nodup)
    (h : createOrder s cid pids = .ok (o, s')) :
    o.total_amount = (pids.map (priceOf s)).sum ∧
    o.productIds.Perm pids ∧
    s'.orders = s.orders ++ [o] := by
  simp only [createOrder] at h
  split at h
  · exact absurd h (by simp)
  · split at h
    · exact absurd h (by simp)
    · split at h
      · exact absurd h (by simp)
      · next hlen =>
        have hlen' : (resolvedProducts s pids).length = pids.length := by
          simpa using hlen
        simp only [Except.ok.injEq, Prod.mk.injEq] at h
        obtain ⟨h1, h2⟩ := h
        subst h1
        have hsub : (resolvedProducts s pids).map Product.id ⊆ pids :=
          mem_pids_of_mem_resolved s pids
        have hnd := resolved_id_nodup s hnodup pids
        have hperm : ((resolvedProducts s pids).map Product.id).Perm pids :=
          (List.subperm_of_subset hnd hsub).perm_of_length_le (by simp [hlen'])
        refine ⟨?_, hperm, by rw [← h2]⟩
        have hpr : ∀ p ∈ resolvedProducts s pids, Product.price p = priceOf s p.id := by
          intro p hp
          have hpmem : p ∈ s.products := List.mem_of_mem_filter hp
          simp [priceOf, findProduct, find?_id_of_nodup s.products hnodup p hpmem]
        calc ((resolvedProducts s pids).map Product.price).sum
            = ((resolvedProducts s pids).map (fun p => priceOf s p.id)).sum := by
              rw [List.map_congr_left hpr]
          _ = (((resolvedProducts s pids).map Product.id).map (priceOf s)).sum := by
              rw [List.map_map]
              rfl
          _ = (pids.map (priceOf s)).sum := (hperm.map (priceOf s)).sum_eq

/-- Witness for claim C6 at a concrete input: products priced 10.00
and 5.50 give a stored total of 15.50. -/
theorem createOrder_total_witness :
    ∃ o s', createOrder dbTwo 1 [1, 2] = .ok (o, s') ∧
      o.total_amount = ([1, 2].map (priceOf dbTwo)).sum ∧
      o.total_amount = 31/2 ∧ o.productIds.Perm [1, 2] := by
  have hok : createOrder dbTwo 1 [1, 2] = .ok (⟨1, 1, [1, 2], 31/2⟩,
      ⟨dbTwo.customers, dbTwo.products, [⟨1, 1, [1, 2], 31/2⟩], 2, 3, 2⟩) := by
    simp [createOrder, dbTwo, findCustomer, resolvedProducts]
    norm_num
  have h := createOrder_total dbTwo 1 [1, 2] _ _ (by decide) hok
  exact ⟨_, _, hok, h.1, rfl, h.2.1⟩

/- ### BulkCreateCustomers theorems -/

/-- Unfolding of the bulk loop on a duplicate item. -/
theorem bulkGo_cons_dup (s : State) (d : CustomerInput) (rest : List CustomerInput)
    (hd : emailExists s d.email = true) :
    bulkGo s (d :: rest) =
      ((bulkGo s rest).1, "Duplicate email" :: (bulkGo s rest).2.1, (bulkGo s rest).2.2) := by
  simp [bulkGo, hd]

/-- Unfolding of the bulk loop on a fresh item. -/
theorem bulkGo_cons_fresh (s : State) (d : CustomerInput) (rest : List CustomerInput)
    (hd : emailExists s d.email = false) :
    bulkGo s (d :: rest) =
      (⟨s.nextCustomerId, d.name, d.email, d.phone⟩ :: (bulkGo (bulkStep s d) rest).1,
        (bulkGo (bulkStep s d) rest).2.1, (bulkGo (bulkStep s d) rest).2.2) := by
  simp [bulkGo, hd]

/-- Invariant form of the bulk loop's behaviour: with `taken` listing
exactly the emails present in the store, the loop appends precisely
the non-duplicate items (in order) to the store, answers one error
string per duplicate item, and classifies the items by
`specDupFlags`. -/
theorem bulkGo_spec (input : List CustomerInput) :
    ∀ (s : State) (taken : List String),
      (∀ e, e ∈ taken ↔ emailExists s e = true) →
      (bulkGo s input).2.2.customers = s.customers ++ (bulkGo s input).1 ∧
      (bulkGo s input).1.length + (bulkGo s input).2.1.length = input.length ∧
      (bulkGo s input).2.1 =
        List.replicate ((specDupFlags taken input).count true) "Duplicate email" ∧
      (bulkGo s input).1.map (fun c => (c.name, c.email, c.phone)) =
        ((input.zip (specDupFlags taken input)).filter (fun p => !p.2)).map
          (fun p => (p.1.name, p.1.email, p.1.phone)) := by
  induction input with
  | nil =>
    intro s taken hinv
    simp [bulkGo, specDupFlags]
  | cons d rest ih =>
    intro s taken hinv
    by_cases hd : emailExists s d.email = true
    · have hflag : decide (d.email ∈ taken) = true := by
        simp [hinv d.email, hd]
      have hinv' : ∀ e, e ∈ taken ++ [d.email] ↔ emailExists s e = true := by
        intro e
        simp only [List.mem_append, List.mem_singleton, hinv e]
        constructor
        · rintro (he | rfl)
          · exact he
          · exact hd
        · intro he
          exact Or.inl he
      obtain ⟨ih1, ih2, ih3, ih4⟩ := ih s (taken ++ [d.email]) hinv'
      rw [bulkGo_cons_dup s d rest hd]
      simp only [specDupFlags, hflag]
      refine ⟨ih1, ?_, ?_, ?_⟩
      · simp only [List.length_cons]
        omega
      · rw [ih3]
        simp [List.count_cons, List.replicate_succ]
      · simp only [List.zip_cons_cons, List.filter_cons, Bool.not_true, Bool.false_eq_true,
          if_false]
        exact ih4
    · have hd' : emailExists s d.email = false := by
        simpa using hd
      have hflag : decide (d.email ∈ taken) = false := by
        simp only [decide_eq_false_iff_not, hinv d.email]
        exact hd
      have hinv' : ∀ e, e ∈ taken ++ [d.email] ↔ emailExists (bulkStep s d) e = true := by
        intro e
        simp only [List.mem_append, List.mem_singleton, hinv e, bulkStep, emailExists,
          List.any_append, Bool.or_eq_true, List.any_cons, List.any_nil, Bool.or_false,
          beq_iff_eq]
        constructor
        · rintro (he | rfl)
          · exact Or.inl he
          · exact Or.inr rfl
        · rintro (he | he)
          · exact Or.inl he
          · exact Or.inr he.symm
      obtain ⟨ih1, ih2, ih3, ih4⟩ := ih (bulkStep s d) (taken ++ [d.email]) hinv'
      rw [bulkGo_cons_fresh s d rest hd']
      simp only [specDupFlags, hflag]
      refine ⟨?_, ?_, ?_, ?_⟩
      · rw [ih1]
        simp [bulkStep, List.append_assoc]
      · simp only [List.length_cons]
        omega
      · rw [ih3]
        simp [List.count_cons]
      · simp only [List.zip_cons_cons, List.filter_cons, Bool.not_false, if_pos,
          List.map_cons]
        rw [ih4]

/-- The emails of the store's customers are exactly the emails the
duplicate check reports as taken. -/
theorem mem_emails_iff (s : State) :
    ∀ e, e ∈ s.customers.map Customer.email ↔ emailExists s e = true := by
  intro e
  simp [emailExists, List.any_eq_true, beq_iff_eq]

/-- Claim C1: `BulkCreateCustomers` is total (the per-item `except`
keeps every exception inside the loop, so the atomic block commits):
it returns created customers and error strings where each duplicate
item (email taken at the start or seen earlier in the call, as
computed by `specDupFlags`) contributes exactly one `"Duplicate
email"` string and each other item one created customer with its
fields, and all created customers are persisted in the final store
even when other items errored. -/
theorem bulkCreateCustomers_spec (s : State) (input : List CustomerInput) :
    (bulkCreateCustomers s input).2.2.customers =
      s.customers ++ (bulkCreateCustomers s input).1 ∧
    (bulkCreateCustomers s input).1.length + (bulkCreateCustomers s input).2.1.length =
      input.length ∧
    (bulkCreateCustomers s input).2.1 =
      List.replicate ((specDupFlags (s.customers.map Customer.email) input).count true)
        "Duplicate email" ∧
    (bulkCreateCustomers s input).1.map (fun c => (c.name, c.email, c.phone)) =
      ((input.zip (specDupFlags (s.customers.map Customer.email) input)).filter
        (fun p => !p.2)).map (fun p => (p.1.name, p.1.email, p.1.phone)) :=
  bulkGo_spec input s (s.customers.map Customer.email) (mem_emails_iff s)

/-- Rows present in the store survive the whole bulk loop. -/
theorem bulkGo_customers_mono (input : List CustomerInput) :
    ∀ s : State, ∀ c ∈ s.customers, c ∈ (bulkGo s input).2.2.customers := by
  induction input with
  | nil =>
    intro s c hc
    exact hc
  | cons d rest ih =>
    intro s c hc
    by_cases hd : emailExists s d.email = true
    · rw [bulkGo_cons_dup s d rest hd]
      exact ih s c hc
    · have hd' : emailExists s d.email = false := by
        simpa using hd
      rw [bulkGo_cons_fresh s d rest hd']
      exact ih (bulkStep s d) c (by simp [bulkStep, hc])

/-- Claim C8: `BulkCreateCustomers` performs no phone validation - an
item whose email is fresh is created with its phone stored verbatim
and persists, even when the very same phone makes `CreateCustomer`
fail with the phone-format error. -/
theorem bulk_no_phone_validation (s : State) (d : CustomerInput) (rest : List CustomerInput)
    (hfresh : emailExists s d.email = false)
    (hbad : phoneCheckPasses d.phone = false) :
    createCustomer s d.name d.email d.phone = .error "Invalid phone format" ∧
    ∃ cs es s', bulkCreateCustomers s (d :: rest) =
        (⟨s.nextCustomerId, d.name, d.email, d.phone⟩ :: cs, es, s') ∧
      (⟨s.nextCustomerId, d.name, d.email, d.phone⟩ : Customer) ∈ s'.customers := by
  constructor
  · simp [createCustomer, hfresh, hbad]
  · unfold bulkCreateCustomers
    rw [bulkGo_cons_fresh s d rest hfresh]
    refine ⟨_, _, _, rfl, ?_⟩
    exact bulkGo_customers_mono rest (bulkStep s d) _ (by simp [bulkStep])

/-- Witness for claim C8 at a concrete input: phone `"abc"`. -/
theorem bulk_no_phone_validation_witness :
    createCustomer State.init "Bob" "b@x.com" (some "abc") = .error "Invalid phone format" ∧
    ∃ cs es s', bulkCreateCustomers State.init [⟨"Bob", "b@x.com", some "abc"⟩] =
        (⟨1, "Bob", "b@x.com", some "abc"⟩ :: cs, es, s') ∧
      (⟨1, "Bob", "b@x.com", some "abc"⟩ : Customer) ∈ s'.customers :=
  bulk_no_phone_validation State.init ⟨"Bob", "b@x.com", some "abc"⟩ [] rfl (by decide)

end CRM
